import Mathlib

/-!
Verification of the node-react-chat-app server core: the connection
handlers (`src/server/handlers.js`) over an in-memory client registry and
chatroom store.  Handlers are embedded as pure functions that return an
action trace (the sequence of store mutations and broadcasts the JS code
performs, in program order) together with the value or error passed to the
transport callback.  `runTrace` interprets a trace over a `Store`,
recording every broadcast together with the member set and history of the
target room at the moment the broadcast is emitted.
-/

namespace ChatApp

/-- A JS string value that may be `undefined` is modelled as `Option String`. -/
def jsShow : Option String → String
  | none => "undefined"
  | some s => s

/-- JS truthiness of a possibly-undefined string: `undefined` and `""` are falsy. -/
def jsTruthy : Option String → Bool
  | none => false
  | some s => s ≠ ""

/-- The payload part of a chat entry: `createEntry()` in the source returns
either `{event: ...}` (join/leave notices) or `{message: ...}` (user text,
possibly `undefined`). -/
inductive EntryPayload where
  | event (e : String)
  | message (m : Option String)
  deriving DecidableEq, Repr

/-- One history record, as built in `handleEvent`:
`{ clientId, userName, timestamp, ...createEntry() }`. -/
structure ChatEntry where
  clientId : String
  userName : String
  timestamp : String
  payload : EntryPayload
  deriving DecidableEq, Repr

/-- A chatroom: name, append-only history, member connection ids. -/
structure Chatroom where
  name : String
  history : List ChatEntry
  members : List String
  deriving DecidableEq, Repr

/-- The shared mutable server state: the client registry
(connection id bound to a display name) and the set of rooms. -/
structure Store where
  registry : List (String × String)
  rooms : List Chatroom
  deriving DecidableEq, Repr

/-- Modelled from the spec: `ClientRegistry.getNameByConnectionId`
(`clientManager.getUserByClientId` in the source, whose implementation is
not part of the embedded sources) — lookup of the display name bound to a
connection id, absent marker when unbound. -/
def getUserByClientId (s : Store) (clientId : String) : Option String :=
  (s.registry.find? (fun b => b.1 = clientId)).map (fun b => b.2)

/-- Modelled from the spec: `ClientRegistry.isNameAvailable`
(`clientManager.isUserAvailable`) — true iff no currently-registered
connection holds the name. -/
def isUserAvailable (s : Store) (userName : String) : Bool :=
  ¬ s.registry.any (fun b => b.2 = userName)

/-- Modelled from the spec: `ChatroomStore.getByName`
(`chatroomManager.getChatroomByName`) — room lookup by exact name,
absent marker on a miss (including an `undefined` name). -/
def getChatroomByName (s : Store) (name : Option String) : Option Chatroom :=
  s.rooms.find? (fun r => name = some r.name)

/-- Modelled from the spec: `ChatroomStore.roomsContaining`
(`chatroomManager.getChatroomsByClientId`) — stable snapshot of all rooms
where the connection is currently a member. -/
def getChatroomsByClientId (s : Store) (clientId : String) : List Chatroom :=
  s.rooms.filter (fun r => clientId ∈ r.members)

/-- A serialized room summary, as produced by the store for `listRooms`. -/
structure RoomSummary where
  name : String
  memberCount : Nat
  historyLength : Nat
  deriving DecidableEq, Repr

/-- Modelled from the spec: `ChatroomStore.listSerialized`
(`chatroomManager.serializeChatrooms`) — `{name, memberCount,
historyLength}` per room, in insertion order. -/
def serializeChatrooms (s : Store) : List RoomSummary :=
  s.rooms.map (fun r => ⟨r.name, r.members.length, r.history.length⟩)

/-- The primitive store mutations and transport effects the handlers
perform, in program order. -/
inductive Action where
  | appendEntry (room : String) (e : ChatEntry)
  | broadcast (room : String) (e : ChatEntry)
  | addMember (room : String) (clientId : String)
  | removeMember (room : String) (clientId : String)
  | removeClientAllRooms (clientId : String)
  | removeRegistry (clientId : String)
  | registerName (clientId : String) (userName : String)
  deriving DecidableEq, Repr

/-- Update the first room carrying the given name (the object `getByName`
returns), leaving the rest untouched. -/
def updateFirst (rs : List Chatroom) (rn : String) (f : Chatroom → Chatroom) : List Chatroom :=
  match rs with
  | [] => []
  | r :: rest => if r.name = rn then f r :: rest else r :: updateFirst rest rn f

/-- Apply one action to the store.  `broadcast` is a pure transport effect
and leaves the store unchanged. -/
def applyAction (s : Store) : Action → Store
  | .appendEntry rn e =>
      { s with rooms := updateFirst s.rooms rn (fun r => { r with history := r.history ++ [e] }) }
  | .broadcast _ _ => s
  | .addMember rn cid =>
      let f := fun r : Chatroom =>
        { r with members := if cid ∈ r.members then r.members else r.members ++ [cid] }
      { s with rooms := updateFirst s.rooms rn f }
  | .removeMember rn cid =>
      let f := fun r : Chatroom => { r with members := r.members.filter (fun m => m ≠ cid) }
      { s with rooms := updateFirst s.rooms rn f }
  | .removeClientAllRooms cid =>
      { s with rooms := s.rooms.map (fun r => { r with members := r.members.filter (fun m => m ≠ cid) }) }
  | .removeRegistry cid =>
      { s with registry := s.registry.filter (fun b => b.1 ≠ cid) }
  | .registerName cid un =>
      { s with registry := s.registry.filter (fun b => b.1 ≠ cid) ++ [(cid, un)] }

/-- A broadcast as observed on the wire: the room annotation, the entry,
the member set it was delivered to (snapshot at call time) and the room
history at the moment of emission. -/
structure Emitted where
  chat : String
  entry : ChatEntry
  targets : List String
  historyAtEmit : List ChatEntry
  deriving DecidableEq, Repr

/-- Interpret a trace: final store plus the emitted broadcasts, each
recorded with the target room state current when it fires. -/
def runTrace (s : Store) : List Action → Store × List Emitted
  | [] => (s, [])
  | a :: rest =>
      let em : List Emitted :=
        match a with
        | .broadcast rn e =>
            match getChatroomByName s (some rn) with
            | some r => [⟨rn, e, r.members, r.history⟩]
            | none => []
        | _ => []
      let p := runTrace (applyAction s a) rest
      (p.1, em ++ p.2)

/-- Embedding of `handleEvent` from the source: resolve the room and the actor
(room-miss rejection wins, matching the `Promise.all` order), then append
the constructed entry to the room history and broadcast it; returns the
room (by name) for follow-up mutation. -/
def handleEvent (s : Store) (clientId ts : String) (chatroomName : Option String)
    (payload : EntryPayload) : List Action × Except String String :=
  match getChatroomByName s chatroomName with
  | none => ([], .error ("Invalid chatroom name: " ++ jsShow chatroomName))
  | some room =>
      match getUserByClientId s clientId with
      | none => ([], .error "Register username to chat.")
      | some userName =>
          let entry : ChatEntry := ⟨clientId, userName, ts, payload⟩
          ([.appendEntry room.name entry, .broadcast room.name entry], .ok room.name)

/-- Embedding of `handleRegister` from the source: reject an unavailable name, else
bind it and return the identity pair. -/
def handleRegister (s : Store) (clientId userName : String) :
    List Action × Except String (String × String) :=
  if ¬ isUserAvailable s userName then
    ([], .error ("Username " ++ userName ++ " not available"))
  else
    ([.registerName clientId userName], .ok (clientId, userName))

/-- Embedding of `handleJoin` from the source: run the event pipeline with
`{event: "joined <room>"}`, then add the member, then return the room
history (read after both mutations). -/
def handleJoin (s : Store) (clientId ts : String) (chatroomName : Option String) :
    List Action × Except String (List ChatEntry) :=
  match handleEvent s clientId ts chatroomName (.event ("joined " ++ jsShow chatroomName)) with
  | (_, .error e) => ([], .error e)
  | (tr, .ok rn) =>
      let tr2 := tr ++ [.addMember rn clientId]
      let hist :=
        match getChatroomByName (runTrace s tr2).1 (some rn) with
        | some r => r.history
        | none => []
      (tr2, .ok hist)

/-- Embedding of `handleLeave` from the source: run the event pipeline with
`{event: "left <room>"}`, then remove the member. -/
def handleLeave (s : Store) (clientId ts : String) (chatroomName : Option String) :
    List Action × Except String Unit :=
  match handleEvent s clientId ts chatroomName (.event ("left " ++ jsShow chatroomName)) with
  | (_, .error e) => ([], .error e)
  | (tr, .ok rn) => (tr ++ [.removeMember rn clientId], .ok ())

/-- Embedding of `handleMessage` from the source: the payload defaults to the empty
object (`= {}`), so both fields may be `undefined`; run the event pipeline
with `{message}`. -/
def handleMessage (s : Store) (clientId ts : String) (chatroomName : Option String)
    (message : Option String) : List Action × Except String Unit :=
  match handleEvent s clientId ts chatroomName (.message message) with
  | (_, .error e) => ([], .error e)
  | (tr, .ok _) => (tr, .ok ())

/-- Embedding of `handleGetChatrooms` from the source: serialize all rooms and keep
those matching the filter; a falsy filter (absent or empty string) keeps
everything.  Always succeeds. -/
def handleGetChatrooms (s : Store) (chatroomNameFilter : Option String) :
    List Action × Except String (List RoomSummary) :=
  ([], .ok ((serializeChatrooms s).filter
      (fun c => if jsTruthy chatroomNameFilter then chatroomNameFilter = some c.name else true)))

/-- Embedding of `handleCreateChatroom` from the source: an unimplemented stub — it
returns without touching the store and without ever invoking the callback
(`none` models the callback not being called). -/
def handleCreateChatroom (_s : Store) (_chatroomName : Option String) :
    List Action × Option (Except String Unit) :=
  ([], none)

/-- Embedding of `handleDisconnect` from the source: for every room currently holding
the connection, run the event pipeline with `{event: "left <room>"}`
(validation reads the state at disconnect time; a per-room rejection
contributes nothing and teardown continues), then remove the member from
every room and erase the registry binding. -/
def handleDisconnect (s : Store) (clientId ts : String) : List Action :=
  ((getChatroomsByClientId s clientId).flatMap
      (fun c => (handleEvent s clientId ts (some c.name) (.event ("left " ++ c.name))).1))
    ++ [.removeClientAllRooms clientId, .removeRegistry clientId]

/-! ## Basic facts about the store operations and the trace interpreter -/

lemma getChatroomByName_some_name {s : Store} {cn : Option String} {room : Chatroom}
    (h : getChatroomByName s cn = some room) : cn = some room.name := by
  unfold getChatroomByName at h
  have hp := List.find?_some h
  exact of_decide_eq_true hp

lemma getChatroomByName_undefined (s : Store) : getChatroomByName s none = none := by
  unfold getChatroomByName
  exact List.find?_eq_none.mpr (fun r _ => by simp)

lemma find_updateFirst (rs : List Chatroom) (rn : String) (f : Chatroom → Chatroom)
    (hf : ∀ r, (f r).name = r.name) :
    (updateFirst rs rn f).find? (fun r => some rn = some r.name) =
      ((rs.find? (fun r => some rn = some r.name)).map f) := by
  induction rs with
  | nil => rfl
  | cons r rest ih =>
      by_cases h : r.name = rn
      · have hp : decide (some rn = some (f r).name) = true := by simp [hf, h]
        have hq : decide (some rn = some r.name) = true := by simp [h]
        simp only [updateFirst, if_pos h]
        rw [List.find?_cons, List.find?_cons, hp, hq]
        rfl
      · have h2 : ¬ rn = r.name := fun hc => h hc.symm
        have hq : decide (some rn = some r.name) = false := by simp [h2]
        simp only [updateFirst, if_neg h]
        rw [List.find?_cons, List.find?_cons, hq]
        exact ih

lemma updateFirst_map (rs : List Chatroom) (rn : String) (f : Chatroom → Chatroom)
    {β : Type} (g : Chatroom → β) (hf : ∀ r, g (f r) = g r) :
    (updateFirst rs rn f).map g = rs.map g := by
  induction rs with
  | nil => rfl
  | cons r rest ih =>
      by_cases h : r.name = rn
      · simp [updateFirst, h, hf]
      · simp [updateFirst, h, ih]

lemma runTrace_fst (s : Store) (tr : List Action) :
    (runTrace s tr).1 = tr.foldl applyAction s := by
  induction tr generalizing s with
  | nil => rfl
  | cons a rest ih => simpa [runTrace] using ih (applyAction s a)

lemma find_filter_ne_append (l : List (String × String)) (cid un : String) :
    ((l.filter (fun b => b.1 ≠ cid)) ++ [(cid, un)]).find? (fun b => b.1 = cid) =
      some (cid, un) := by
  induction l with
  | nil => simp
  | cons b rest ih =>
      by_cases h : b.1 = cid
      · simp [List.filter_cons, h]
      · simp [List.filter_cons, h]

lemma getChatroomByName_appendEntry (s : Store) (rn : String) (e : ChatEntry) :
    getChatroomByName (applyAction s (.appendEntry rn e)) (some rn) =
      (getChatroomByName s (some rn)).map
        (fun r => { r with history := r.history ++ [e] }) :=
  find_updateFirst s.rooms rn _ (fun _ => rfl)

lemma getChatroomByName_addMember (s : Store) (rn : String) (cid : String) :
    getChatroomByName (applyAction s (.addMember rn cid)) (some rn) =
      (getChatroomByName s (some rn)).map
        (fun r => { r with
          members := if cid ∈ r.members then r.members else r.members ++ [cid] }) :=
  find_updateFirst s.rooms rn _ (fun _ => rfl)

lemma getChatroomByName_removeMember (s : Store) (rn : String) (cid : String) :
    getChatroomByName (applyAction s (.removeMember rn cid)) (some rn) =
      (getChatroomByName s (some rn)).map
        (fun r => { r with members := r.members.filter (fun m => m ≠ cid) }) :=
  find_updateFirst s.rooms rn _ (fun _ => rfl)

/-! ## Claim theorems -/

/-- C1: if the room name does not resolve or the caller is not registered,
`handleEvent` fails with the respective descriptive error ("Invalid
chatroom name: X" winning when both checks fail, matching the
`Promise.all` rejection order), performs no action, and leaves the store
unchanged with no broadcast emitted. -/
theorem c1_validation_failure (s : Store) (cid ts : String) (cn : Option String)
    (p : EntryPayload)
    (h : getChatroomByName s cn = none ∨ getUserByClientId s cid = none) :
    ∃ msg : String,
      handleEvent s cid ts cn p = ([], Except.error msg) ∧
      (getChatroomByName s cn = none → msg = "Invalid chatroom name: " ++ jsShow cn) ∧
      (getChatroomByName s cn ≠ none → msg = "Register username to chat.") ∧
      runTrace s (handleEvent s cid ts cn p).1 = (s, []) := by
  cases hroom : getChatroomByName s cn with
  | none =>
      exact ⟨"Invalid chatroom name: " ++ jsShow cn, by simp [handleEvent, hroom],
        fun _ => rfl, fun hc => absurd rfl hc, by simp [handleEvent, hroom, runTrace]⟩
  | some room =>
      have huser : getUserByClientId s cid = none := by
        rcases h with h | h
        · rw [hroom] at h; cases h
        · exact h
      refine ⟨"Register username to chat.", by simp [handleEvent, hroom, huser], ?_,
        fun _ => rfl, by simp [handleEvent, hroom, huser, runTrace]⟩
      intro hc
      cases hc

/-- Witness for C1 at a concrete input: empty store, room "lobby" absent. -/
theorem c1_validation_failure_witness :
    ∃ msg : String,
      handleEvent ⟨[], []⟩ "c1" "t0" (some "lobby") (.message (some "hi")) =
        ([], Except.error msg) ∧
      (getChatroomByName ⟨[], []⟩ (some "lobby") = none →
        msg = "Invalid chatroom name: " ++ jsShow (some "lobby")) ∧
      (getChatroomByName ⟨[], []⟩ (some "lobby") ≠ none →
        msg = "Register username to chat.") ∧
      runTrace ⟨[], []⟩
          (handleEvent ⟨[], []⟩ "c1" "t0" (some "lobby") (.message (some "hi"))).1 =
        (⟨[], []⟩, []) :=
  c1_validation_failure ⟨[], []⟩ "c1" "t0" (some "lobby") (.message (some "hi"))
    (Or.inl (by decide))

/-- C5: registering an unavailable name fails with "Username X not
available" and changes nothing; otherwise the name is bound to the
connection and the identity pair is returned; in both cases no broadcast
is emitted and no room history or membership changes. -/
theorem c5_register (s : Store) (cid un : String) :
    (isUserAvailable s un = false →
      handleRegister s cid un = ([], Except.error ("Username " ++ un ++ " not available")) ∧
      runTrace s (handleRegister s cid un).1 = (s, [])) ∧
    (isUserAvailable s un = true →
      handleRegister s cid un = ([.registerName cid un], Except.ok (cid, un)) ∧
      getUserByClientId (runTrace s (handleRegister s cid un).1).1 cid = some un ∧
      (runTrace s (handleRegister s cid un).1).1.rooms = s.rooms ∧
      (runTrace s (handleRegister s cid un).1).2 = []) := by
  constructor
  · intro hna
    constructor
    · simp [handleRegister, hna]
    · simp [handleRegister, hna, runTrace]
  · intro hav
    refine ⟨by simp [handleRegister, hav], ?_, ?_, ?_⟩
    · simp [handleRegister, hav, runTrace, applyAction, getUserByClientId,
        find_filter_ne_append]
    · simp [handleRegister, hav, runTrace, applyAction]
    · simp [handleRegister, hav, runTrace, applyAction]

/-- Witness for C5 at a concrete input: name "alice" free in the empty
registry, then bound to connection "c1". -/
theorem c5_register_witness :
    (isUserAvailable ⟨[], []⟩ "alice" = false →
      handleRegister ⟨[], []⟩ "c1" "alice" =
        ([], Except.error ("Username " ++ "alice" ++ " not available")) ∧
      runTrace ⟨[], []⟩ (handleRegister ⟨[], []⟩ "c1" "alice").1 = (⟨[], []⟩, [])) ∧
    (isUserAvailable ⟨[], []⟩ "alice" = true →
      handleRegister ⟨[], []⟩ "c1" "alice" =
        ([.registerName "c1" "alice"], Except.ok ("c1", "alice")) ∧
      getUserByClientId (runTrace ⟨[], []⟩ (handleRegister ⟨[], []⟩ "c1" "alice").1).1 "c1" =
        some "alice" ∧
      (runTrace ⟨[], []⟩ (handleRegister ⟨[], []⟩ "c1" "alice").1).1.rooms =
        Store.rooms ⟨[], []⟩ ∧
      (runTrace ⟨[], []⟩ (handleRegister ⟨[], []⟩ "c1" "alice").1).2 = []) :=
  c5_register ⟨[], []⟩ "c1" "alice"

/-- C9: calling `handleMessage` with the defaulted empty payload (both
fields `undefined`) does not throw: it is rejected through the normal
validation path with "Invalid chatroom name: undefined" and mutates
nothing. -/
theorem c9_defaulted_payload (s : Store) (cid ts : String) :
    handleMessage s cid ts none none =
      ([], Except.error "Invalid chatroom name: undefined") ∧
    runTrace s (handleMessage s cid ts none none).1 = (s, []) := by
  have h := getChatroomByName_undefined s
  constructor
  · simp [handleMessage, handleEvent, h, jsShow]
  · simp [handleMessage, handleEvent, h, runTrace]

/-- C10: the unimplemented `handleCreateChatroom` stub performs no store
action, never invokes its callback, and leaves the store unchanged. -/
theorem c10_create_chatroom_stub (s : Store) (cn : Option String) :
    handleCreateChatroom s cn = ([], none) ∧
    runTrace s (handleCreateChatroom s cn).1 = (s, []) :=
  ⟨rfl, rfl⟩

/-- C8 counterexample: with the filter set to the empty string — a name
filter under the claim's reading — the handler returns every room summary,
including one whose name differs from the filter, because the source
treats a falsy (empty) filter as absent. -/
theorem c8_empty_filter_counterexample :
    (handleGetChatrooms ⟨[], [⟨"general", [], []⟩]⟩ (some "")).2 =
      Except.ok [⟨"general", 0, 0⟩] ∧
    ("general" : String) ≠ "" := by
  exact ⟨rfl, by decide⟩

/-- C8 amended: `handleGetChatrooms` performs no store action and never
fails; with an absent or empty-string filter (both falsy in the source) it
returns all room summaries, and with a non-empty filter it returns exactly
the summaries whose name equals the filter string. -/
theorem c8_list_chatrooms (s : Store) (filt : Option String) :
    (handleGetChatrooms s filt).1 = [] ∧
    ∃ l : List RoomSummary, (handleGetChatrooms s filt).2 = Except.ok l ∧
      (jsTruthy filt = false → l = serializeChatrooms s) ∧
      (∀ f : String, filt = some f → f ≠ "" →
        ∀ c : RoomSummary, c ∈ l ↔ (c ∈ serializeChatrooms s ∧ c.name = f)) := by
  refine ⟨rfl, (serializeChatrooms s).filter
      (fun c => if jsTruthy filt then filt = some c.name else true), rfl, ?_, ?_⟩
  · intro hfalse
    simp [hfalse]
  · intro f hf hne c
    subst hf
    have ht : jsTruthy (some f) = true := by simp [jsTruthy, hne]
    simp [List.mem_filter, ht, eq_comm]

/-- Witness for C8 amended at a concrete input: one room, no filter. -/
theorem c8_list_chatrooms_witness :
    (handleGetChatrooms ⟨[], [⟨"general", [], []⟩]⟩ none).1 = [] ∧
    ∃ l : List RoomSummary,
      (handleGetChatrooms ⟨[], [⟨"general", [], []⟩]⟩ none).2 = Except.ok l ∧
      (jsTruthy none = false → l = serializeChatrooms ⟨[], [⟨"general", [], []⟩]⟩) ∧
      (∀ f : String, none = some f → f ≠ "" →
        ∀ c : RoomSummary,
          c ∈ l ↔ (c ∈ serializeChatrooms ⟨[], [⟨"general", [], []⟩]⟩ ∧ c.name = f)) :=
  c8_list_chatrooms ⟨[], [⟨"general", [], []⟩]⟩ none

/-- C2: on every successful `handleEvent` run, every broadcast the trace
emits carries an entry that is already present in the target room's
history at the moment the broadcast fires (append strictly precedes
broadcast). -/
theorem c2_append_precedes_broadcast (s : Store) (cid ts : String) (cn : Option String)
    (p : EntryPayload) (rn : String)
    (h : (handleEvent s cid ts cn p).2 = Except.ok rn) :
    ∀ b ∈ (runTrace s (handleEvent s cid ts cn p).1).2, b.entry ∈ b.historyAtEmit := by
  cases hroom : getChatroomByName s cn with
  | none => simp [handleEvent, hroom] at h
  | some room =>
      cases huser : getUserByClientId s cid with
      | none => simp [handleEvent, hroom, huser] at h
      | some un =>
          have hcn := getChatroomByName_some_name hroom
          rw [hcn] at hroom
          have htr : (handleEvent s cid ts cn p).1 =
              [.appendEntry room.name ⟨cid, un, ts, p⟩,
               .broadcast room.name ⟨cid, un, ts, p⟩] := by
            simp [handleEvent, hcn, hroom, huser]
          have hb1 : getChatroomByName
              (applyAction s (.appendEntry room.name ⟨cid, un, ts, p⟩)) (some room.name) =
              some { room with history := room.history ++ [⟨cid, un, ts, p⟩] } := by
            rw [getChatroomByName_appendEntry, hroom]
            rfl
          intro b hb
          rw [htr] at hb
          simp only [runTrace, hb1] at hb
          simp at hb
          subst hb
          simp

/-- Witness for C2 at a concrete input: registered user "alice" sends a
message to the existing room "general". -/
theorem c2_append_precedes_broadcast_witness :
    (handleEvent ⟨[("c1", "alice")], [⟨"general", [], []⟩]⟩ "c1" "t0" (some "general")
        (.message (some "hi"))).2 = Except.ok "general" ∧
    ∀ b ∈ (runTrace ⟨[("c1", "alice")], [⟨"general", [], []⟩]⟩
        (handleEvent ⟨[("c1", "alice")], [⟨"general", [], []⟩]⟩ "c1" "t0" (some "general")
          (.message (some "hi"))).1).2, b.entry ∈ b.historyAtEmit :=
  ⟨rfl, c2_append_precedes_broadcast ⟨[("c1", "alice")], [⟨"general", [], []⟩]⟩ "c1" "t0"
    (some "general") (.message (some "hi")) "general" rfl⟩

/-- C7: `handleMessage` never changes any room's member set (success or
failure), and on success its whole effect is to append and broadcast one
entry whose payload is the message text. -/
theorem c7_message_membership_frame (s : Store) (cid ts : String) (cn : Option String)
    (m : Option String) :
    ((runTrace s (handleMessage s cid ts cn m).1).1.rooms.map
        (fun r => (r.name, r.members)) =
      s.rooms.map (fun r => (r.name, r.members))) ∧
    ((handleMessage s cid ts cn m).2 = Except.ok () →
      ∃ rn : String, ∃ e : ChatEntry, e.payload = .message m ∧
        (handleMessage s cid ts cn m).1 = [.appendEntry rn e, .broadcast rn e]) := by
  cases hroom : getChatroomByName s cn with
  | none =>
      constructor
      · simp [handleMessage, handleEvent, hroom, runTrace]
      · intro hok
        simp [handleMessage, handleEvent, hroom] at hok
  | some room =>
      cases huser : getUserByClientId s cid with
      | none =>
          constructor
          · simp [handleMessage, handleEvent, hroom, huser, runTrace]
          · intro hok
            simp [handleMessage, handleEvent, hroom, huser] at hok
      | some un =>
          constructor
          · have htr : (handleMessage s cid ts cn m).1 =
                [.appendEntry room.name ⟨cid, un, ts, .message m⟩,
                 .broadcast room.name ⟨cid, un, ts, .message m⟩] := by
              simp [handleMessage, handleEvent, hroom, huser]
            rw [htr, runTrace_fst]
            simp only [List.foldl]
            exact updateFirst_map s.rooms room.name _ _ (fun _ => rfl)
          · intro _
            exact ⟨room.name, ⟨cid, un, ts, .message m⟩, rfl,
              by simp [handleMessage, handleEvent, hroom, huser]⟩

/-- Witness for C7 at a concrete input: message to a missing room leaves
the (empty) membership map unchanged. -/
theorem c7_message_membership_frame_witness :
    ((runTrace ⟨[], []⟩ (handleMessage ⟨[], []⟩ "c1" "t0" (some "ghost")
          (some "hi")).1).1.rooms.map (fun r => (r.name, r.members)) =
      (Store.rooms ⟨[], []⟩).map (fun r => (r.name, r.members))) ∧
    ((handleMessage ⟨[], []⟩ "c1" "t0" (some "ghost") (some "hi")).2 = Except.ok () →
      ∃ rn : String, ∃ e : ChatEntry, e.payload = .message (some "hi") ∧
        (handleMessage ⟨[], []⟩ "c1" "t0" (some "ghost") (some "hi")).1 =
          [.appendEntry rn e, .broadcast rn e]) :=
  c7_message_membership_frame ⟨[], []⟩ "c1" "t0" (some "ghost") (some "hi")

lemma applyAction_broadcast (s : Store) (rn : String) (e : ChatEntry) :
    applyAction s (.broadcast rn e) = s := rfl

/-- C6: leaving an existing room as a registered user — member or not —
records and broadcasts a "left <room>" entry, with the membership removal
strictly after the append and broadcast in the action order, and the call
is never rejected with a membership error. -/
theorem c6_leave_records_event (s : Store) (cid ts rn un : String) (room : Chatroom)
    (hroom : getChatroomByName s (some rn) = some room)
    (huser : getUserByClientId s cid = some un) :
    (handleLeave s cid ts (some rn)).1 =
      [.appendEntry rn ⟨cid, un, ts, .event ("left " ++ rn)⟩,
       .broadcast rn ⟨cid, un, ts, .event ("left " ++ rn)⟩,
       .removeMember rn cid] ∧
    (handleLeave s cid ts (some rn)).2 = Except.ok () ∧
    (∃ q : Chatroom,
      getChatroomByName (runTrace s (handleLeave s cid ts (some rn)).1).1 (some rn) =
        some q ∧
      ⟨cid, un, ts, .event ("left " ++ rn)⟩ ∈ q.history ∧ cid ∉ q.members) ∧
    (∃ b : Emitted, (runTrace s (handleLeave s cid ts (some rn)).1).2 = [b] ∧
      b.entry = ⟨cid, un, ts, .event ("left " ++ rn)⟩ ∧ b.chat = rn ∧
      b.targets = room.members) := by
  have hn : rn = room.name := Option.some.inj (getChatroomByName_some_name hroom)
  subst hn
  have htr : (handleLeave s cid ts (some room.name)).1 =
      [.appendEntry room.name ⟨cid, un, ts, .event ("left " ++ room.name)⟩,
       .broadcast room.name ⟨cid, un, ts, .event ("left " ++ room.name)⟩,
       .removeMember room.name cid] := by
    simp [handleLeave, handleEvent, hroom, huser, jsShow]
  have hb1 : getChatroomByName
      (applyAction s
        (.appendEntry room.name ⟨cid, un, ts, .event ("left " ++ room.name)⟩))
      (some room.name) =
      some { room with
        history := room.history ++ [⟨cid, un, ts, .event ("left " ++ room.name)⟩] } := by
    rw [getChatroomByName_appendEntry, hroom]
    rfl
  refine ⟨htr, by simp [handleLeave, handleEvent, hroom, huser], ?_, ?_⟩
  · refine ⟨{ room with
        history := room.history ++ [⟨cid, un, ts, .event ("left " ++ room.name)⟩],
        members := room.members.filter (fun m => m ≠ cid) }, ?_, by simp, by simp⟩
    rw [htr, runTrace_fst]
    simp only [List.foldl, applyAction_broadcast]
    rw [getChatroomByName_removeMember, hb1]
    rfl
  · refine ⟨⟨room.name, ⟨cid, un, ts, .event ("left " ++ room.name)⟩, room.members,
      room.history ++ [⟨cid, un, ts, .event ("left " ++ room.name)⟩]⟩, ?_, rfl, rfl, rfl⟩
    rw [htr]
    simp only [runTrace, applyAction_broadcast, hb1]
    rfl

/-- Witness for C6 at a concrete input: "alice" leaves room "general"
having never joined it (she is not in the member set); the "left" entry is
still recorded and no membership error occurs. -/
theorem c6_leave_records_event_witness :
    (handleLeave ⟨[("c1", "alice")], [⟨"general", [], []⟩]⟩ "c1" "t0" (some "general")).1 =
      [.appendEntry "general" ⟨"c1", "alice", "t0", .event ("left " ++ "general")⟩,
       .broadcast "general" ⟨"c1", "alice", "t0", .event ("left " ++ "general")⟩,
       .removeMember "general" "c1"] ∧
    (handleLeave ⟨[("c1", "alice")], [⟨"general", [], []⟩]⟩ "c1" "t0"
        (some "general")).2 = Except.ok () ∧
    (∃ q : Chatroom,
      getChatroomByName (runTrace ⟨[("c1", "alice")], [⟨"general", [], []⟩]⟩
          (handleLeave ⟨[("c1", "alice")], [⟨"general", [], []⟩]⟩ "c1" "t0"
            (some "general")).1).1 (some "general") = some q ∧
      ⟨"c1", "alice", "t0", .event ("left " ++ "general")⟩ ∈ q.history ∧
      "c1" ∉ q.members) ∧
    (∃ b : Emitted,
      (runTrace ⟨[("c1", "alice")], [⟨"general", [], []⟩]⟩
          (handleLeave ⟨[("c1", "alice")], [⟨"general", [], []⟩]⟩ "c1" "t0"
            (some "general")).1).2 = [b] ∧
      b.entry = ⟨"c1", "alice", "t0", .event ("left " ++ "general")⟩ ∧
      b.chat = "general" ∧ b.targets = Chatroom.members ⟨"general", [], []⟩) :=
  c6_leave_records_event ⟨[("c1", "alice")], [⟨"general", [], []⟩]⟩ "c1" "t0" "general"
    "alice" ⟨"general", [], []⟩ rfl rfl

/-- C3 counterexample: when an already-joined client joins "general"
again, the join succeeds and its own join notice is broadcast to a target
set that contains the joining client, contradicting the claim that the
joiner is never among the broadcast targets of its own join notice. -/
theorem c3_rejoin_counterexample :
    (handleJoin ⟨[("c1", "alice")], [⟨"general", [], ["c1"]⟩]⟩ "c1" "t0"
        (some "general")).2 =
      Except.ok [⟨"c1", "alice", "t0", .event "joined general"⟩] ∧
    ∃ b : Emitted,
      (runTrace ⟨[("c1", "alice")], [⟨"general", [], ["c1"]⟩]⟩
          (handleJoin ⟨[("c1", "alice")], [⟨"general", [], ["c1"]⟩]⟩ "c1" "t0"
            (some "general")).1).2 = [b] ∧
      b.entry = ⟨"c1", "alice", "t0", .event "joined general"⟩ ∧
      "c1" ∈ b.targets := by
  exact ⟨rfl, ⟨"general", ⟨"c1", "alice", "t0", .event "joined general"⟩, ["c1"],
    [⟨"c1", "alice", "t0", .event "joined general"⟩]⟩, rfl, rfl, by decide⟩

/-- C3 amended: a successful join by a connection that is not already a
member records and broadcasts the "joined <room>" entry, adds the member
strictly afterwards, returns the full history including the joiner's own
entry, and the joiner is not among the broadcast targets of its own join
notice.  (Without the not-already-a-member proviso the last part fails:
see the rejoin counterexample.) -/
theorem c3_join_after_event (s : Store) (cid ts rn un : String) (room : Chatroom)
    (hroom : getChatroomByName s (some rn) = some room)
    (huser : getUserByClientId s cid = some un)
    (hmem : cid ∉ room.members) :
    (handleJoin s cid ts (some rn)).1 =
      [.appendEntry rn ⟨cid, un, ts, .event ("joined " ++ rn)⟩,
       .broadcast rn ⟨cid, un, ts, .event ("joined " ++ rn)⟩,
       .addMember rn cid] ∧
    (handleJoin s cid ts (some rn)).2 =
      Except.ok (room.history ++ [⟨cid, un, ts, .event ("joined " ++ rn)⟩]) ∧
    (∃ q : Chatroom,
      getChatroomByName (runTrace s (handleJoin s cid ts (some rn)).1).1 (some rn) =
        some q ∧
      cid ∈ q.members ∧
      q.history = room.history ++ [⟨cid, un, ts, .event ("joined " ++ rn)⟩]) ∧
    (∀ b ∈ (runTrace s (handleJoin s cid ts (some rn)).1).2, cid ∉ b.targets) := by
  have hn : rn = room.name := Option.some.inj (getChatroomByName_some_name hroom)
  subst hn
  have hb1 : getChatroomByName
      (applyAction s
        (.appendEntry room.name ⟨cid, un, ts, .event ("joined " ++ room.name)⟩))
      (some room.name) =
      some { room with
        history := room.history ++ [⟨cid, un, ts, .event ("joined " ++ room.name)⟩] } := by
    rw [getChatroomByName_appendEntry, hroom]
    rfl
  have hb2 : getChatroomByName
      (applyAction (applyAction
          (applyAction s
            (.appendEntry room.name ⟨cid, un, ts, .event ("joined " ++ room.name)⟩))
          (.broadcast room.name ⟨cid, un, ts, .event ("joined " ++ room.name)⟩))
        (.addMember room.name cid)) (some room.name) =
      some { room with
        history := room.history ++ [⟨cid, un, ts, .event ("joined " ++ room.name)⟩],
        members := room.members ++ [cid] } := by
    rw [applyAction_broadcast, getChatroomByName_addMember, hb1]
    simp [hmem]
  have htr : (handleJoin s cid ts (some room.name)).1 =
      [.appendEntry room.name ⟨cid, un, ts, .event ("joined " ++ room.name)⟩,
       .broadcast room.name ⟨cid, un, ts, .event ("joined " ++ room.name)⟩,
       .addMember room.name cid] := by
    simp [handleJoin, handleEvent, hroom, huser, jsShow]
  refine ⟨htr, ?_, ?_, ?_⟩
  · have hfst : (runTrace s
        [Action.appendEntry room.name ⟨cid, un, ts, .event ("joined " ++ room.name)⟩,
         .broadcast room.name ⟨cid, un, ts, .event ("joined " ++ room.name)⟩,
         .addMember room.name cid]).1 =
        applyAction (applyAction
          (applyAction s
            (.appendEntry room.name ⟨cid, un, ts, .event ("joined " ++ room.name)⟩))
          (.broadcast room.name ⟨cid, un, ts, .event ("joined " ++ room.name)⟩))
        (.addMember room.name cid) := by
      rw [runTrace_fst]
      rfl
    simp [handleJoin, handleEvent, hroom, huser, jsShow, hfst, hb2]
  · refine ⟨{ room with
        history := room.history ++ [⟨cid, un, ts, .event ("joined " ++ room.name)⟩],
        members := room.members ++ [cid] }, ?_, by simp, by simp⟩
    rw [htr, runTrace_fst]
    simp only [List.foldl]
    exact hb2
  · intro b hb
    rw [htr] at hb
    simp only [runTrace, applyAction_broadcast, hb1] at hb
    simp at hb
    subst hb
    simpa using hmem

/-- Witness for C3 amended at a concrete input: "alice" joins "general"
for the first time (empty member set). -/
theorem c3_join_after_event_witness :
    (handleJoin ⟨[("c1", "alice")], [⟨"general", [], []⟩]⟩ "c1" "t0" (some "general")).1 =
      [.appendEntry "general" ⟨"c1", "alice", "t0", .event ("joined " ++ "general")⟩,
       .broadcast "general" ⟨"c1", "alice", "t0", .event ("joined " ++ "general")⟩,
       .addMember "general" "c1"] ∧
    (handleJoin ⟨[("c1", "alice")], [⟨"general", [], []⟩]⟩ "c1" "t0"
        (some "general")).2 =
      Except.ok (Chatroom.history ⟨"general", [], []⟩ ++
        [⟨"c1", "alice", "t0", .event ("joined " ++ "general")⟩]) ∧
    (∃ q : Chatroom,
      getChatroomByName (runTrace ⟨[("c1", "alice")], [⟨"general", [], []⟩]⟩
          (handleJoin ⟨[("c1", "alice")], [⟨"general", [], []⟩]⟩ "c1" "t0"
            (some "general")).1).1 (some "general") = some q ∧
      "c1" ∈ q.members ∧
      q.history = Chatroom.history ⟨"general", [], []⟩ ++
        [⟨"c1", "alice", "t0", .event ("joined " ++ "general")⟩]) ∧
    (∀ b ∈ (runTrace ⟨[("c1", "alice")], [⟨"general", [], []⟩]⟩
        (handleJoin ⟨[("c1", "alice")], [⟨"general", [], []⟩]⟩ "c1" "t0"
          (some "general")).1).2, "c1" ∉ b.targets) :=
  c3_join_after_event ⟨[("c1", "alice")], [⟨"general", [], []⟩]⟩ "c1" "t0" "general"
    "alice" ⟨"general", [], []⟩ rfl rfl (by decide)

/-- C4: after `handleDisconnect` the connection id is in no room's member
set and has no registry binding; if the connection was registered, a
"left <room>" entry is appended and broadcast for every room that
contained it at disconnect time; if it was never registered, the per-room
leave events are swallowed (empty event trace) and the teardown still runs
to completion. -/
theorem c4_disconnect_cleanup (s : Store) (cid ts : String) :
    (∀ r ∈ (runTrace s (handleDisconnect s cid ts)).1.rooms, cid ∉ r.members) ∧
    (getUserByClientId (runTrace s (handleDisconnect s cid ts)).1 cid = none) ∧
    (∀ un : String, getUserByClientId s cid = some un →
      ∀ r ∈ s.rooms, cid ∈ r.members →
        Action.appendEntry r.name ⟨cid, un, ts, .event ("left " ++ r.name)⟩ ∈
            handleDisconnect s cid ts ∧
        Action.broadcast r.name ⟨cid, un, ts, .event ("left " ++ r.name)⟩ ∈
            handleDisconnect s cid ts) ∧
    (getUserByClientId s cid = none →
      handleDisconnect s cid ts = [.removeClientAllRooms cid, .removeRegistry cid]) := by
  have hsplit : (runTrace s (handleDisconnect s cid ts)).1 =
      applyAction (applyAction
        (((getChatroomsByClientId s cid).flatMap
            (fun c => (handleEvent s cid ts (some c.name)
              (.event ("left " ++ c.name))).1)).foldl applyAction s)
        (.removeClientAllRooms cid)) (.removeRegistry cid) := by
    rw [runTrace_fst]
    unfold handleDisconnect
    rw [List.foldl_append]
    rfl
  refine ⟨?_, ?_, ?_, ?_⟩
  · intro r hr
    rw [hsplit] at hr
    simp only [applyAction, List.mem_map] at hr
    obtain ⟨r0, _, rfl⟩ := hr
    simp [List.mem_filter]
  · rw [hsplit]
    simp only [applyAction, getUserByClientId]
    rw [List.find?_eq_none.mpr]
    · rfl
    · intro x hx
      have := (List.mem_filter.mp hx).2
      simp at this ⊢
      exact this
  · intro un hun r hr hmem
    have hrin : r ∈ getChatroomsByClientId s cid := by
      simp [getChatroomsByClientId, List.mem_filter, hr, hmem]
    cases hfind : getChatroomByName s (some r.name) with
    | none =>
        exfalso
        unfold getChatroomByName at hfind
        exact absurd (by simp : decide (some r.name = some r.name) = true)
          (by simpa using List.find?_eq_none.mp hfind r hr)
    | some room0 =>
        have hname : r.name = room0.name :=
          Option.some.inj (getChatroomByName_some_name hfind)
        have hfind2 : getChatroomByName s (some room0.name) = some room0 := by
          rw [← hname]
          exact hfind
        have hev : (handleEvent s cid ts (some r.name)
            (.event ("left " ++ r.name))).1 =
            [.appendEntry r.name ⟨cid, un, ts, .event ("left " ++ r.name)⟩,
             .broadcast r.name ⟨cid, un, ts, .event ("left " ++ r.name)⟩] := by
          rw [hname]
          simp [handleEvent, hfind2, hun]
        constructor
        · apply List.mem_append_left
          exact List.mem_flatMap_of_mem hrin (by rw [hev]; simp)
        · apply List.mem_append_left
          exact List.mem_flatMap_of_mem hrin (by rw [hev]; simp)
  · intro hnone
    unfold handleDisconnect
    have hnil : (getChatroomsByClientId s cid).flatMap
        (fun c => (handleEvent s cid ts (some c.name)
          (.event ("left " ++ c.name))).1) = [] := by
      apply List.flatMap_eq_nil_iff.mpr
      intro c _
      cases hf : getChatroomByName s (some c.name) with
      | none => simp [handleEvent, hf]
      | some room0 => simp [handleEvent, hf, hnone]
    rw [hnil]
    rfl

/-- Witness for C4 at a concrete input: registered "alice" (connection
"c1") is a member of rooms "a" and "b"; after disconnect she is in no
member set and unbound, and both left events were emitted. -/
theorem c4_disconnect_cleanup_witness :
    (∀ r ∈ (runTrace ⟨[("c1", "alice")], [⟨"a", [], ["c1"]⟩, ⟨"b", [], ["c2", "c1"]⟩]⟩
        (handleDisconnect ⟨[("c1", "alice")],
          [⟨"a", [], ["c1"]⟩, ⟨"b", [], ["c2", "c1"]⟩]⟩ "c1" "t0")).1.rooms,
      "c1" ∉ r.members) ∧
    (getUserByClientId (runTrace ⟨[("c1", "alice")],
        [⟨"a", [], ["c1"]⟩, ⟨"b", [], ["c2", "c1"]⟩]⟩
        (handleDisconnect ⟨[("c1", "alice")],
          [⟨"a", [], ["c1"]⟩, ⟨"b", [], ["c2", "c1"]⟩]⟩ "c1" "t0")).1 "c1" = none) ∧
    (∀ un : String,
      getUserByClientId ⟨[("c1", "alice")],
        [⟨"a", [], ["c1"]⟩, ⟨"b", [], ["c2", "c1"]⟩]⟩ "c1" = some un →
      ∀ r ∈ Store.rooms ⟨[("c1", "alice")], [⟨"a", [], ["c1"]⟩, ⟨"b", [], ["c2", "c1"]⟩]⟩,
        "c1" ∈ r.members →
          Action.appendEntry r.name ⟨"c1", un, "t0", .event ("left " ++ r.name)⟩ ∈
              handleDisconnect ⟨[("c1", "alice")],
                [⟨"a", [], ["c1"]⟩, ⟨"b", [], ["c2", "c1"]⟩]⟩ "c1" "t0" ∧
          Action.broadcast r.name ⟨"c1", un, "t0", .event ("left " ++ r.name)⟩ ∈
              handleDisconnect ⟨[("c1", "alice")],
                [⟨"a", [], ["c1"]⟩, ⟨"b", [], ["c2", "c1"]⟩]⟩ "c1" "t0") ∧
    (getUserByClientId ⟨[("c1", "alice")],
        [⟨"a", [], ["c1"]⟩, ⟨"b", [], ["c2", "c1"]⟩]⟩ "c1" = none →
      handleDisconnect ⟨[("c1", "alice")],
          [⟨"a", [], ["c1"]⟩, ⟨"b", [], ["c2", "c1"]⟩]⟩ "c1" "t0" =
        [.removeClientAllRooms "c1", .removeRegistry "c1"]) :=
  c4_disconnect_cleanup ⟨[("c1", "alice")], [⟨"a", [], ["c1"]⟩, ⟨"b", [], ["c2", "c1"]⟩]⟩
    "c1" "t0"

end ChatApp
